import Mathlib

/-!
Verification development for the model-provider registry and pricing
repository of `better-chatbot`
(`src/lib/ai/models.ts`-style module and
`src/lib/db/pg/repositories/openrouter-pricing-repository.pg.ts`).

The TypeScript module is shallowly embedded: JavaScript objects used as
string-keyed maps become association lists, the module-level mutable
variable `openRouterDynamicModels` becomes explicit state passing, the
`fetch` outcome of a refresh becomes an inductive datum, and the
JavaScript builtins `String()` / `Number()` on numbers are modelled as a
decimal printer / parser pair over exact scaled decimals (every JS float
has a finite decimal expansion; exponent-form printing for very large or
tiny magnitudes is outside the modelled range and is not exercised by any
claim).  The `openai-compatible` provider layer
(`createOpenAICompatibleModels`) is not part of the reviewed sources, so
its outputs (a provider table and a set of flagged handles) are
parameters throughout.
-/

/-- A model handle, keyed by the provider factory that constructed it and
the model-name string passed to the factory.  Mirrors the opaque
`LanguageModel` objects produced by `openai("gpt-4.1")`,
`openrouter(id)`, etc.  Two handles are equal when the same factory was
applied to the same string; distinct factories never produce equal
handles, matching the source where the unsupported-model `Set` can only
contain the very objects placed in it at startup. -/
inductive LanguageModel where
  | openai (name : String)
  | google (name : String)
  | anthropic (name : String)
  | xai (name : String)
  | ollama (name : String)
  | groq (name : String)
  | openrouter (name : String)
  | compat (provider : String) (name : String)
deriving DecidableEq

/-- `ModelMap`: a JS object used as a map from model name to handle,
embedded as an association list in insertion order. -/
abbrev ModelMap := List (String × LanguageModel)

/-- Property read `obj[k]` on a JS object embedded as an association
list (first binding wins; our maps keep keys unique by construction). -/
def mapLookup (m : ModelMap) (k : String) : Option LanguageModel :=
  (m.find? (fun p => p.1 == k)).map (·.2)

/-- Property write `obj[k] = v`: overwrites an existing binding in
place, otherwise appends (JS objects keep first-insertion key order). -/
def mapInsert (m : ModelMap) (k : String) (v : LanguageModel) : ModelMap :=
  if m.any (fun p => p.1 == k) then
    m.map (fun p => if p.1 == k then (k, v) else p)
  else
    m ++ [(k, v)]

/-- `staticModels.openai` from the source (note: the `"gpt-4.1-mini"`
key is bound to the handle constructed for `"gpt-4.1-migrate"`, exactly
as in the source). -/
def openaiModels : ModelMap :=
  [("gpt-4.1", .openai "gpt-4.1"),
   ("gpt-4.1-mini", .openai "gpt-4.1-migrate"),
   ("o4-mini", .openai "o4-mini"),
   ("o3", .openai "o3"),
   ("gpt-5", .openai "gpt-5"),
   ("gpt-5-mini", .openai "gpt-5-mini"),
   ("gpt-5-nano", .openai "gpt-5-nano")]

/-- `staticModels.google` from the source. -/
def googleModels : ModelMap :=
  [("gemini-2.5-flash-lite", .google "gemini-2.5-flash-lite"),
   ("gemini-2.5-flash", .google "gemini-2.5-flash"),
   ("gemini-2.5-pro", .google "gemini-2.5-pro")]

/-- `staticModels.anthropic` from the source. -/
def anthropicModels : ModelMap :=
  [("claude-4-sonnet", .anthropic "claude-4-sonnet-20250514"),
   ("claude-4-opus", .anthropic "claude-4-opus-20250514"),
   ("claude-3-7-sonnet", .anthropic "claude-3-7-sonnet-20250219")]

/-- `staticModels.xai` from the source. -/
def xaiModels : ModelMap :=
  [("grok-4", .xai "grok-4"),
   ("grok-4-fast", .xai "grok-4-fast-non-reasoning"),
   ("grok-3", .xai "grok-3"),
   ("grok-3-mini", .xai "grok-3-mini")]

/-- `staticModels.ollama` from the source. -/
def ollamaModels : ModelMap :=
  [("gemma3:1b", .ollama "gemma3:1b"),
   ("gemma3:4b", .ollama "gemma3:4b"),
   ("gemma3:12b", .ollama "gemma3:12b")]

/-- `staticModels.groq` from the source. -/
def groqModels : ModelMap :=
  [("kimi-k2-instruct", .groq "moonshotai/kimi-k2-instruct"),
   ("llama-4-scout-17b", .groq "meta-llama/llama-4-scout-17b-16e-instruct"),
   ("gpt-oss-20b", .groq "openai/gpt-oss-20b"),
   ("gpt-oss-120b", .groq "openai/gpt-oss-120b"),
   ("qwen3-32b", .groq "qwen/qwen3-32b")]

/-- `{...staticModels, openRouter: openRouterDynamicModels}`: the static
provider table with the `openRouter` key bound to the current dynamic
map, in the source's declared key order. -/
def staticWithDyn (dyn : ModelMap) : List (String × ModelMap) :=
  [("openai", openaiModels),
   ("google", googleModels),
   ("anthropic", anthropicModels),
   ("xai", xaiModels),
   ("ollama", ollamaModels),
   ("groq", groqModels),
   ("openRouter", dyn)]

/-- The seed value of the module-level mutable
`openRouterDynamicModels`. -/
def openRouterSeedModels : ModelMap :=
  [("gpt-oss-20b:free", .openrouter "openai/gpt-oss-20b:free"),
   ("qwen3-8b:free", .openrouter "qwen/qwen3-8b:free"),
   ("qwen3-14b:free", .openrouter "qwen/qwen3-14b:free"),
   ("qwen3-coder:free", .openrouter "qwen/qwen3-coder:free"),
   ("deepseek-r1:free", .openrouter "deepseek/deepseek-r1-0528:free"),
   ("deepseek-v3:free", .openrouter "deepseek/deepseek-chat-v3-0324:free"),
   ("gemini-2.0-flash-exp:free", .openrouter "google/gemini-2.0-flash-exp:free")]

/-- JS object spread `{...a, ...b}` on string-keyed objects of maps:
keys of `a` first (values overridden by `b` where both have the key),
then keys of `b` not present in `a`, preserving order. -/
def spreadMerge (a b : List (String × ModelMap)) : List (String × ModelMap) :=
  a.map (fun p =>
    match b.find? (fun q => q.1 == p.1) with
    | some q => (p.1, q.2)
    | none => p) ++
  b.filter (fun q => !(a.any (fun p => p.1 == q.1)))

/-- `getAllModels()` from the source:
`{...openaiCompatibleModels, ...{...staticModels, openRouter: openRouterDynamicModels}}`.
`compat` is the provider table produced by the external
openai-compatible layer (not in the reviewed sources), passed as a
parameter. -/
def getAllModels (compat : List (String × ModelMap)) (dyn : ModelMap) :
    List (String × ModelMap) :=
  spreadMerge compat (staticWithDyn dyn)

/-- Lookup of a provider's model map in a provider table. -/
def tableLookup (t : List (String × ModelMap)) (p : String) : Option ModelMap :=
  (t.find? (fun q => q.1 == p)).map (·.2)

/-- `fallbackModel = staticModels.openai["gpt-4.1"]` from the source. -/
def fallbackModel : LanguageModel := .openai "gpt-4.1"

/-- The `ChatModel` request shape `{provider, model}`. -/
structure ChatModel where
  provider : String
  model : String
deriving DecidableEq

/-- `customModelProvider.getModel` from the source:
`if (!model) return fallbackModel; return current[model.provider]?.[model.model] || fallbackModel;`
(model handles are objects, hence always truthy, so `||` reduces to a
presence test). -/
def getModel (compat : List (String × ModelMap)) (dyn : ModelMap)
    (model : Option ChatModel) : LanguageModel :=
  match model with
  | none => fallbackModel
  | some m =>
    match tableLookup (getAllModels compat dyn) m.provider with
    | none => fallbackModel
    | some mm =>
      match mapLookup mm m.model with
      | some h => h
      | none => fallbackModel

/-- The environment variables the module reads for credentials, each
`Option String` (`none` = unset). -/
structure Env where
  OPENAI_API_KEY : Option String
  GOOGLE_GENERATIVE_AI_API_KEY : Option String
  ANTHROPIC_API_KEY : Option String
  XAI_API_KEY : Option String
  OLLAMA_API_KEY : Option String
  GROQ_API_KEY : Option String
  OPENROUTER_API_KEY : Option String
deriving DecidableEq

/-- `!!key && key != "****"` applied to an optional environment value:
`undefined` and `""` are falsy, and the placeholder `"****"` is
rejected. -/
def keyUsable (key : Option String) : Bool :=
  match key with
  | none => false
  | some s => !(s == "") && !(s == "****")

/-- `checkProviderAPIKey(provider)` from the source: a `switch` over the
seven known provider names selecting the matching environment variable;
the `default` branch returns `true` ("assume the provider has an API
key").  `modelsInfo` calls this with every provider name of
`getAllModels()`, including openai-compatible ones, which land in the
`default` branch. -/
def checkProviderAPIKey (env : Env) (provider : String) : Bool :=
  match provider with
  | "openai" => keyUsable env.OPENAI_API_KEY
  | "google" => keyUsable env.GOOGLE_GENERATIVE_AI_API_KEY
  | "anthropic" => keyUsable env.ANTHROPIC_API_KEY
  | "xai" => keyUsable env.XAI_API_KEY
  | "ollama" => keyUsable env.OLLAMA_API_KEY
  | "groq" => keyUsable env.GROQ_API_KEY
  | "openRouter" => keyUsable env.OPENROUTER_API_KEY
  | _ => true

/-- `staticUnsupportedModels` from the source: the four statically
denylisted handles (by object identity, which our handle equality
captures). -/
def staticUnsupportedModels : List LanguageModel :=
  [.openai "o4-mini", .ollama "gemma3:1b", .ollama "gemma3:4b", .ollama "gemma3:12b"]

/-- `allUnsupportedModels = new Set([...openaiCompatibleUnsupportedModels, ...staticUnsupportedModels])`:
built once at module initialization; `compatU` is the handle list
flagged by the external openai-compatible layer. -/
def allUnsupportedModels (compatU : List LanguageModel) : List LanguageModel :=
  compatU ++ staticUnsupportedModels

/-- The module's mutable state: the single `let`-bound variable
`openRouterDynamicModels`. -/
structure RegistryState where
  openRouterDynamicModels : ModelMap
deriving DecidableEq

/-- `isToolCallUnsupportedModel(model)` from the source:
`allUnsupportedModels.has(model)`.  It reads only the startup-time set;
the registry state is taken as an argument to make its (non-)dependence
on the dynamic table a statement rather than a convention. -/
def isToolCallUnsupportedModel (compatU : List LanguageModel)
    (_st : RegistryState) (model : LanguageModel) : Bool :=
  (allUnsupportedModels compatU).contains model

/-- An exact scaled decimal `m / 10^e`, the model of a JavaScript
number in this module (every finite JS float has a finite decimal
expansion; price magnitudes here are far from the exponent-printing
range). -/
structure Dec where
  m : Int
  e : Nat
deriving DecidableEq

/-- Numeric value of a scaled decimal. -/
def Dec.toRat (d : Dec) : ℚ := (d.m : ℚ) / (10 : ℚ) ^ d.e

/-- A JS number including `NaN` (`none`).  `JVal.num` values coming
from JSON are never `NaN`; `NaN` arises only from failed `Number()`
coercions. -/
abbrev JsNum := Option Dec

/-- Numeric value of a JS number, `none` for `NaN`. -/
def jsNumVal (x : JsNum) : Option ℚ := x.map Dec.toRat

/-- Big-endian decimal digits of a natural number (`[]` for `0`). -/
def natDigits (n : Nat) : List Nat := (Nat.digits 10 n).reverse

/-- Left-pad a digit list with zeros to length at least `len`. -/
def padDigits (l : List Nat) (len : Nat) : List Nat :=
  List.replicate (len - l.length) 0 ++ l

/-- Value of a big-endian digit list (Horner). -/
def valDigits (l : List Nat) : Nat :=
  l.foldl (fun a d => a * 10 + d) 0

/-- The character for a decimal digit. -/
def digitChar (d : Nat) : Char := Char.ofNat (48 + d)

/-- The digit denoted by a character (meaningful when `c.isDigit`). -/
def charDigit (c : Char) : Nat := c.toNat - 48

/-- Value of a big-endian list of digit characters. -/
def valChars (cs : List Char) : Nat :=
  cs.foldl (fun a c => a * 10 + charDigit c) 0

/-- The unsigned part of the decimal rendering of a digit list `ds`
read as `valDigits ds / 10^e`: a decimal point before the last `e`
digits (no point when `e = 0`). -/
def coreChars (ds : List Nat) (e : Nat) : List Char :=
  let ip := ds.take (ds.length - e)
  let fp := ds.drop (ds.length - e)
  if e = 0 then ip.map digitChar
  else ip.map digitChar ++ '.' :: fp.map digitChar

/-- The characters `String(x)` produces for the JS number `m / 10^e`:
sign, then the digits of `|m|` left-padded to at least `e + 1` digits
with a decimal point before the last `e` of them (no point when
`e = 0`). -/
def decChars (d : Dec) : List Char :=
  let ds := padDigits (natDigits d.m.natAbs) (d.e + 1)
  if d.m < 0 then '-' :: coreChars ds d.e else coreChars ds d.e

/-- `String(x)` for a non-`NaN` JS number, modelled for the plain
decimal notation range. -/
def decToString (d : Dec) : String := String.mk (decChars d)

/-- `String(x)` for any JS number (`String(NaN) = "NaN"`). -/
def jsNumToString (x : JsNum) : String :=
  match x with
  | none => "NaN"
  | some d => decToString d

/-- Split a character list at the first `'.'`:
returns the prefix before it and, when a `'.'` occurs, the suffix after
it. -/
def breakDot (cs : List Char) : List Char × Option (List Char) :=
  match cs with
  | [] => ([], none)
  | c :: rest =>
    if c = '.' then ([], some rest)
    else
      let r := breakDot rest
      (c :: r.1, r.2)

/-- Strip one leading `'-'`. -/
def stripNeg (cs : List Char) : Bool × List Char :=
  match cs with
  | [] => (false, [])
  | c :: rest => if c = '-' then (true, rest) else (false, cs)

/-- Apply a JS-number sign. -/
def signedVal (neg : Bool) (n : Nat) : Int :=
  if neg then -(n : Int) else (n : Int)

/-- The part of `Number(s)` after an optional sign has been stripped:
digits with at most one point, at least one digit in total; anything
else is `NaN` (`none`). -/
def parseBody (neg : Bool) (cs : List Char) : JsNum :=
  let bd := breakDot cs
  match bd.2 with
  | none =>
    if bd.1 ≠ [] ∧ bd.1.all (fun c => c.isDigit) then
      some ⟨signedVal neg (valChars bd.1), 0⟩
    else none
  | some fp =>
    if (bd.1 ++ fp) ≠ [] ∧ (bd.1 ++ fp).all (fun c => c.isDigit) then
      some ⟨signedVal neg (valChars (bd.1 ++ fp)), fp.length⟩
    else none

/-- `Number(s)` on a string, modelled for plain decimal numerals:
optional sign, digits with at most one point, at least one digit;
`Number("") = 0`; everything else (including `"NaN"`) is `NaN`
(`none`).  JS whitespace trimming, exponent, hex and `Infinity` forms
are outside the modelled range and unreachable from the printer. -/
def parseDecChars (cs : List Char) : JsNum :=
  if cs = [] then some ⟨0, 0⟩
  else
    let sn := stripNeg cs
    parseBody sn.1 sn.2

/-- `Number(s)` on a string. -/
def parseDec (s : String) : JsNum := parseDecChars s.data

/-- A parsed JSON value (the result of `response.json()`). -/
inductive JVal where
  | null
  | bool (b : Bool)
  | num (d : Dec)
  | str (s : String)
  | arr (xs : List JVal)
  | obj (fields : List (String × JVal))

/-- Optional-chaining property read `v?.k`: `none` models JS
`undefined` (non-objects and missing keys). -/
def jGet (v : JVal) (k : String) : Option JVal :=
  match v with
  | .obj fields => (fields.find? (fun p => p.1 == k)).map (·.2)
  | _ => none

/-- JS truthiness of a JSON value (`NaN` cannot occur in parsed
JSON, so a number is truthy iff nonzero). -/
def truthy (v : JVal) : Bool :=
  match v with
  | .null => false
  | .bool b => b
  | .num d => !(d.m == 0)
  | .str s => !(s == "")
  | .arr _ => true
  | .obj _ => true

/-- JS truthiness of a possibly-`undefined` value. -/
def truthyO (v : Option JVal) : Bool :=
  match v with
  | none => false
  | some w => truthy w

/-- `Number(v)` coercion of a JSON value: `null ↦ 0`, booleans to
`0`/`1`, numbers unchanged, strings via the decimal parser, the empty
array to `0` and other arrays and all objects to `NaN`  (single-element
arrays coerce through their element's string form in full JS; price
fields are never arrays, so that corner is collapsed to `NaN`). -/
def jsToNumber (v : JVal) : JsNum :=
  match v with
  | .null => some ⟨0, 0⟩
  | .bool b => some ⟨if b then 1 else 0, 0⟩
  | .num d => some d
  | .str s => parseDec s
  | .arr [] => some ⟨0, 0⟩
  | .arr _ => none
  | .obj _ => none

/-- `Number(v)` of a possibly-`undefined` value
(`Number(undefined) = NaN`). -/
def jsToNumberO (v : Option JVal) : JsNum :=
  match v with
  | none => none
  | some w => jsToNumber w

/-- The `OpenRouterPricing` record shape from the repository module
(`updatedAt` is a wall-clock timestamp and is not modelled; no claim
concerns it).  `requestPrice = none` models JS `null`/absent. -/
structure OpenRouterPricing where
  modelId : String
  promptPrice : JsNum
  completionPrice : JsNum
  requestPrice : Option JsNum
  currency : String
deriving DecidableEq

/-- Outcome of the `fetch` + `response.json()` of a refresh:
a thrown network error, a non-success status (`!response.ok`), a body
that fails JSON parsing (also caught), or a parsed body. -/
inductive FetchOutcome where
  | netError
  | notOk
  | jsonError
  | ok (body : JVal)

/-- The entry list a refresh extracts from the parsed body:
`Array.isArray(data?.data) ? data.data : Array.isArray(data?.models) ? data.models : []`. -/
def extractList (body : JVal) : List JVal :=
  match jGet body "data" with
  | some (.arr xs) => xs
  | _ =>
    match jGet body "models" with
    | some (.arr xs) => xs
    | _ => []

/-- One iteration of the refresh loop over a catalog entry `m`,
threading the `fresh` map under construction and the list of pricing
upserts issued so far:
skips entries whose `id` is not a truthy string; otherwise binds
`fresh[id] = openrouter(id)` and, when `pricing`, `pricing.prompt` and
`pricing.completion` are all truthy and prompt and completion coerce to
non-`NaN` numbers, pushes one upsert with `currency: "USD"` and
`requestPrice` either `Number(pricing.request)` (when `pricing.request`
is truthy) or `null`. -/
def processEntry (acc : ModelMap × List OpenRouterPricing) (m : JVal) :
    ModelMap × List OpenRouterPricing :=
  match jGet m "id" with
  | some (.str id) =>
    if id = "" then acc
    else
      let fresh := mapInsert acc.1 id (.openrouter id)
      let pricing := jGet m "pricing"
      let prompt := pricing.bind (fun p => jGet p "prompt")
      let completion := pricing.bind (fun p => jGet p "completion")
      let request := pricing.bind (fun p => jGet p "request")
      if truthyO pricing && truthyO prompt && truthyO completion then
        let promptPrice := jsToNumberO prompt
        let completionPrice := jsToNumberO completion
        let requestPrice : Option JsNum :=
          if truthyO request then some (jsToNumberO request) else none
        if !(promptPrice = none) && !(completionPrice = none) then
          (fresh, acc.2 ++
            [{ modelId := id, promptPrice := promptPrice,
               completionPrice := completionPrice,
               requestPrice := requestPrice, currency := "USD" }])
        else (fresh, acc.2)
      else (fresh, acc.2)
  | _ => acc

/-- Result of one refresh: the value of `openRouterDynamicModels`
afterwards and the pricing upserts issued (in push order). -/
structure RefreshResult where
  table : ModelMap
  upserts : List OpenRouterPricing
deriving DecidableEq

/-- `refreshOpenRouterModels()` from the source, as a function of the
environment, the fetch outcome, and the previous dynamic table:
returns immediately when `!apiKey || apiKey === "****"`; swallows fetch
errors, non-success statuses and JSON parse errors; otherwise folds the
extracted entry list and swaps the table only when the fresh map is
non-empty. -/
def refreshOpenRouterModels (env : Env) (outcome : FetchOutcome)
    (old : ModelMap) : RefreshResult :=
  match env.OPENROUTER_API_KEY with
  | none => ⟨old, []⟩
  | some apiKey =>
    if apiKey = "" ∨ apiKey = "****" then ⟨old, []⟩
    else
      match outcome with
      | .netError => ⟨old, []⟩
      | .notOk => ⟨old, []⟩
      | .jsonError => ⟨old, []⟩
      | .ok body =>
        let acc := (extractList body).foldl processEntry ([], [])
        ⟨if acc.1.length > 0 then acc.1 else old, acc.2⟩

/-- `startOpenRouterRefreshSchedule()` from the source, reduced to the
fact it decides: whether any refresh (the immediate one or the interval
timer's) is ever invoked.  The body runs the initial refresh and
installs the interval timer only when `checkProviderAPIKey("openRouter")`
holds. -/
def refreshScheduleStarted (env : Env) : Bool :=
  checkProviderAPIKey env "openRouter"

/-- Number of refresh invocations over the process lifetime, given the
number of elapsed 30-minute timer ticks: the initial refresh plus one
per tick when the schedule started, zero otherwise. -/
def refreshInvocationCount (env : Env) (ticks : Nat) : Nat :=
  if refreshScheduleStarted env then ticks + 1 else 0

/-- The value of `openRouterDynamicModels` after the given sequence of
fetch outcomes (one per invoked refresh, in order): the seed table
evolved by each refresh when the schedule started, the untouched seed
otherwise. -/
def openRouterTableAfter (env : Env) (outcomes : List FetchOutcome) : ModelMap :=
  if refreshScheduleStarted env then
    outcomes.foldl (fun t oc => (refreshOpenRouterModels env oc t).table)
      openRouterSeedModels
  else openRouterSeedModels

/-- A row of the `OpenRouterPricingSchema` table: prices are stored as
text columns exactly as `String(...)` rendered them (`updatedAt` not
modelled; no claim concerns it). -/
structure PricingRow where
  modelId : String
  promptPrice : String
  completionPrice : String
  requestPrice : Option String
  currency : String
deriving DecidableEq

/-- The pricing table, as its ordered list of rows. -/
abbrev PricingStore := List PricingRow

/-- The row `upsert` writes for a record `p`:
`promptPrice: String(p.promptPrice)`, `completionPrice: String(p.completionPrice)`,
`requestPrice: p.requestPrice != null ? String(p.requestPrice) : null`. -/
def rowOf (p : OpenRouterPricing) : PricingRow :=
  { modelId := p.modelId,
    promptPrice := jsNumToString p.promptPrice,
    completionPrice := jsNumToString p.completionPrice,
    requestPrice := p.requestPrice.map jsNumToString,
    currency := p.currency }

/-- `pgOpenRouterPricingRepository.upsert`: insert keyed by `modelId`
with `onConflictDoUpdate` overwriting every non-identity column. -/
def upsert (st : PricingStore) (p : OpenRouterPricing) : PricingStore :=
  if st.any (fun r => r.modelId == p.modelId) then
    st.map (fun r => if r.modelId == p.modelId then rowOf p else r)
  else
    st ++ [rowOf p]

/-- The read-side conversion of a row:
`Number(r.promptPrice)`, `Number(r.completionPrice)`,
`r.requestPrice != null ? Number(r.requestPrice) : null`. -/
def pricingOfRow (r : PricingRow) : OpenRouterPricing :=
  { modelId := r.modelId,
    promptPrice := parseDec r.promptPrice,
    completionPrice := parseDec r.completionPrice,
    requestPrice := r.requestPrice.map parseDec,
    currency := r.currency }

/-- `pgOpenRouterPricingRepository.getByModelIds`: returns
`([], no query)` for an empty id list, otherwise one `inArray` select
converted row by row; the boolean records whether a database round trip
was issued. -/
def getByModelIds (st : PricingStore) (ids : List String) :
    List OpenRouterPricing × Bool :=
  if ids.length = 0 then ([], false)
  else
    ((st.filter (fun r => ids.contains r.modelId)).map pricingOfRow, true)

/-- One element of the `modelsInfo` result. -/
structure ModelEntryInfo where
  name : String
  unsupported : Bool
deriving DecidableEq

/-- One provider's entry in the `modelsInfo` result. -/
structure ProviderInfo where
  provider : String
  models : List ModelEntryInfo
  hasAPIKey : Bool
deriving DecidableEq

/-- `customModelProvider.modelsInfo` from the source: maps over
`Object.entries(getAllModels())` and calls `checkProviderAPIKey` with
every provider name, so openai-compatible provider names reach its
`default` branch. -/
def modelsInfo (env : Env) (compatU : List LanguageModel)
    (compat : List (String × ModelMap)) (st : RegistryState) :
    List ProviderInfo :=
  (getAllModels compat st.openRouterDynamicModels).map (fun pm =>
    { provider := pm.1,
      models := pm.2.map (fun nm =>
        { name := nm.1,
          unsupported := isToolCallUnsupportedModel compatU st nm.2 }),
      hasAPIKey := checkProviderAPIKey env pm.1 })

/-- The combined table's `[provider][model]` entry consulted by
`getModel`: `current[provider]?.[model]`. -/
def resolveModel (compat : List (String × ModelMap)) (dyn : ModelMap)
    (provider model : String) : Option LanguageModel :=
  match tableLookup (getAllModels compat dyn) provider with
  | none => none
  | some mm => mapLookup mm model

/-- The identifier under which the refresh loop registers a catalog
entry: its `id` field when that is a truthy string
(`!id || typeof id !== "string"` skips everything else, including the
empty string). -/
def validId (m : JVal) : Option String :=
  match jGet m "id" with
  | some (.str s) => if s = "" then none else some s
  | _ => none

/-- Modelled from the spec: "that provider's environment secret" — the
per-provider environment variable the specification associates with
each of the seven known providers; providers outside the switch have no
environment secret (`none`).  Used only to state the credential-check
claim, for comparison with `checkProviderAPIKey`. -/
def specProviderSecret (env : Env) (provider : String) : Option String :=
  match provider with
  | "openai" => env.OPENAI_API_KEY
  | "google" => env.GOOGLE_GENERATIVE_AI_API_KEY
  | "anthropic" => env.ANTHROPIC_API_KEY
  | "xai" => env.XAI_API_KEY
  | "ollama" => env.OLLAMA_API_KEY
  | "groq" => env.GROQ_API_KEY
  | "openRouter" => env.OPENROUTER_API_KEY
  | _ => none

/-- The provider names `checkProviderAPIKey`'s `switch` knows. -/
def knownProviderNames : List String :=
  ["openai", "google", "anthropic", "xai", "ollama", "groq", "openRouter"]

/-- A concrete environment with a usable OpenRouter key. -/
def envW : Env := ⟨none, none, none, none, none, none, some "sk-or-test"⟩

/-- A concrete environment with no keys at all. -/
def envNone : Env := ⟨none, none, none, none, none, none, none⟩

/-- A concrete catalog body whose entries have id `""` (a string, but
falsy) and id `"B"`. -/
def bodyA : JVal :=
  .obj [("data", .arr [.obj [("id", .str "")], .obj [("id", .str "B")]])]

/-- A concrete catalog body whose single entry has the numeric id `42`. -/
def bodyBadIds : JVal :=
  .obj [("data", .arr [.obj [("id", .num ⟨42, 0⟩)]])]

/-- A concrete catalog body with one fully priced entry
(`prompt = "0.000001"`, `completion = "0.000002"`, no `request`). -/
def bodyPriced : JVal :=
  .obj [("data", .arr [.obj [("id", .str "m"),
    ("pricing", .obj [("prompt", .str "0.000001"),
                      ("completion", .str "0.000002")])]])]

/-- A concrete catalog body whose single entry's `pricing.prompt` is
the number `0`: it coerces to the number `0`, but is falsy. -/
def bodyZeroPrompt : JVal :=
  .obj [("data", .arr [.obj [("id", .str "m"),
    ("pricing", .obj [("prompt", .num ⟨0, 0⟩),
                      ("completion", .str "0.5")])]])]

/-- A concrete one-entry dynamic table. -/
def seedA : ModelMap := [("A", .openrouter "A")]

/-- A concrete pricing record (prompt `0.000001`, completion
`0.000002`, no request price). -/
def pricingW : OpenRouterPricing :=
  { modelId := "openai/gpt-4o", promptPrice := some ⟨1, 6⟩,
    completionPrice := some ⟨2, 6⟩, requestPrice := none,
    currency := "USD" }

theorem foldl_horner (l : List Nat) (a : Nat) :
    l.foldl (fun a d => a * 10 + d) a = a * 10 ^ l.length + valDigits l := by
  induction l generalizing a with
  | nil => simp [valDigits]
  | cons hd tl ih =>
    simp only [List.foldl_cons, List.length_cons, valDigits]
    rw [ih (a * 10 + hd), ih (0 * 10 + hd)]
    ring

theorem valDigits_append (x y : List Nat) :
    valDigits (x ++ y) = valDigits x * 10 ^ y.length + valDigits y := by
  unfold valDigits
  rw [List.foldl_append, foldl_horner]
  rfl

theorem valDigits_reverse (l : List Nat) :
    valDigits l.reverse = Nat.ofDigits 10 l := by
  induction l with
  | nil => simp [valDigits]
  | cons hd tl ih =>
    rw [List.reverse_cons, valDigits_append, ih, Nat.ofDigits_cons]
    simp [valDigits]
    ring

theorem valDigits_natDigits (n : Nat) : valDigits (natDigits n) = n := by
  rw [natDigits, valDigits_reverse, Nat.ofDigits_digits]

theorem valDigits_replicate_zero (k : Nat) :
    valDigits (List.replicate k 0) = 0 := by
  induction k with
  | zero => rfl
  | succ k ih =>
    rw [List.replicate_succ]
    show List.foldl (fun a d => a * 10 + d) (0 * 10 + 0) _ = 0
    simpa [valDigits] using ih

theorem valDigits_padDigits (l : List Nat) (k : Nat) :
    valDigits (padDigits l k) = valDigits l := by
  rw [padDigits, valDigits_append, valDigits_replicate_zero]
  simp

theorem length_padDigits (l : List Nat) (k : Nat) :
    k ≤ (padDigits l k).length := by
  rw [padDigits, List.length_append, List.length_replicate]
  omega

theorem mem_padDigits_natDigits_lt (n k : Nat) :
    ∀ x ∈ padDigits (natDigits n) k, x < 10 := by
  intro x hx
  rw [padDigits] at hx
  rcases List.mem_append.mp hx with h | h
  · have := List.eq_of_mem_replicate h
    omega
  · rw [natDigits, List.mem_reverse] at h
    exact Nat.digits_lt_base (by norm_num) h

theorem digitChar_toNat {d : Nat} (h : d < 10) :
    (digitChar d).toNat = 48 + d := by
  interval_cases d <;> decide

theorem charDigit_digitChar {d : Nat} (h : d < 10) :
    charDigit (digitChar d) = d := by
  rw [charDigit, digitChar_toNat h]
  omega

theorem isDigit_digitChar {d : Nat} (h : d < 10) :
    (digitChar d).isDigit = true := by
  interval_cases d <;> decide

theorem digitChar_ne_dot {d : Nat} (h : d < 10) : digitChar d ≠ '.' := by
  intro heq
  have h2 := congrArg Char.toNat heq
  rw [digitChar_toNat h] at h2
  have h3 : ('.').toNat = 46 := rfl
  rw [h3] at h2
  omega

theorem digitChar_ne_neg {d : Nat} (h : d < 10) : digitChar d ≠ '-' := by
  intro heq
  have h2 := congrArg Char.toNat heq
  rw [digitChar_toNat h] at h2
  have h3 : ('-').toNat = 45 := rfl
  rw [h3] at h2
  omega

theorem foldl_charDigit_map (ds : List Nat) (a : Nat)
    (h : ∀ d ∈ ds, d < 10) :
    List.foldl (fun x c => x * 10 + charDigit c) a (ds.map digitChar) =
      List.foldl (fun x d => x * 10 + d) a ds := by
  induction ds generalizing a with
  | nil => rfl
  | cons hd tl ih =>
    have hhd : hd < 10 := h hd (by simp)
    simp only [List.map_cons, List.foldl_cons, charDigit_digitChar hhd]
    exact ih _ (fun d hd_ => h d (by simp [hd_]))

theorem valChars_map_digitChar (ds : List Nat) (h : ∀ d ∈ ds, d < 10) :
    valChars (ds.map digitChar) = valDigits ds := by
  unfold valChars valDigits
  exact foldl_charDigit_map ds 0 h

theorem all_isDigit_map_digitChar (ds : List Nat) (h : ∀ d ∈ ds, d < 10) :
    (ds.map digitChar).all (fun c => c.isDigit) = true := by
  rw [List.all_eq_true]
  intro c hc
  rcases List.mem_map.mp hc with ⟨d, hd, rfl⟩
  exact isDigit_digitChar (h d hd)

theorem breakDot_no_dot (cs : List Char) (h : ∀ c ∈ cs, c ≠ '.') :
    breakDot cs = (cs, none) := by
  induction cs with
  | nil => rfl
  | cons hd tl ih =>
    rw [breakDot]
    rw [if_neg (h hd (by simp)), ih (fun c hc => h c (by simp [hc]))]

theorem breakDot_append_dot (a b : List Char) (h : ∀ c ∈ a, c ≠ '.') :
    breakDot (a ++ '.' :: b) = (a, some b) := by
  induction a with
  | nil => simp [breakDot]
  | cons hd tl ih =>
    rw [List.cons_append, breakDot]
    rw [if_neg (h hd (by simp)), ih (fun c hc => h c (by simp [hc]))]

theorem stripNeg_of_ne (c : Char) (cs : List Char) (h : c ≠ '-') :
    stripNeg (c :: cs) = (false, c :: cs) := by
  rw [stripNeg]
  simp [h]

theorem stripNeg_neg (cs : List Char) : stripNeg ('-' :: cs) = (true, cs) := by
  rw [stripNeg]
  simp

theorem take_sub_ne_nil (ds : List Nat) (e : Nat) (hlen : e + 1 ≤ ds.length) :
    ds.take (ds.length - e) ≠ [] := by
  intro hnil
  have h1 : (ds.take (ds.length - e)).length = ds.length - e := by
    rw [List.length_take]
    omega
  rw [hnil] at h1
  simp at h1
  omega

theorem parseBody_coreChars (ds : List Nat) (e : Nat) (neg : Bool)
    (h10 : ∀ x ∈ ds, x < 10) (hlen : e + 1 ≤ ds.length) :
    parseBody neg (coreChars ds e) = some ⟨signedVal neg (valDigits ds), e⟩ := by
  have hip10 : ∀ x ∈ ds.take (ds.length - e), x < 10 :=
    fun x hx => h10 x (List.take_subset _ _ hx)
  have hipne := take_sub_ne_nil ds e hlen
  have hdsne : ds ≠ [] := by
    intro hnil
    rw [hnil] at hlen
    simp at hlen
  by_cases he : e = 0
  · subst he
    have hip : ds.take (ds.length - 0) = ds := by
      rw [Nat.sub_zero, List.take_length]
    rw [coreChars]
    simp only [hip, eq_self_iff_true, if_true]
    have hnodot : ∀ c ∈ ds.map digitChar, c ≠ '.' := by
      intro c hc
      rcases List.mem_map.mp hc with ⟨x, hx, rfl⟩
      exact digitChar_ne_dot (h10 x hx)
    rw [parseBody]
    simp only [breakDot_no_dot _ hnodot]
    rw [if_pos ⟨by simpa using hdsne, all_isDigit_map_digitChar ds h10⟩]
    rw [valChars_map_digitChar ds h10]
  · rw [coreChars]
    simp only [if_neg he]
    have hipdot : ∀ c ∈ (ds.take (ds.length - e)).map digitChar, c ≠ '.' := by
      intro c hc
      rcases List.mem_map.mp hc with ⟨x, hx, rfl⟩
      exact digitChar_ne_dot (hip10 x hx)
    rw [parseBody]
    simp only [breakDot_append_dot _ _ hipdot]
    have hjoin : (ds.take (ds.length - e)).map digitChar ++
        (ds.drop (ds.length - e)).map digitChar = ds.map digitChar := by
      rw [← List.map_append, List.take_append_drop]
    rw [hjoin]
    rw [if_pos ⟨by simpa using hdsne, all_isDigit_map_digitChar ds h10⟩]
    rw [valChars_map_digitChar ds h10]
    have hfplen : ((ds.drop (ds.length - e)).map digitChar).length = e := by
      rw [List.length_map, List.length_drop]
      omega
    rw [hfplen]

theorem stripNeg_coreChars (ds : List Nat) (e : Nat)
    (h10 : ∀ x ∈ ds, x < 10) (hlen : e + 1 ≤ ds.length) :
    stripNeg (coreChars ds e) = (false, coreChars ds e) := by
  have hip10 : ∀ x ∈ ds.take (ds.length - e), x < 10 :=
    fun x hx => h10 x (List.take_subset _ _ hx)
  have hipne := take_sub_ne_nil ds e hlen
  rcases List.exists_cons_of_ne_nil hipne with ⟨i0, ip2, hip⟩
  have hi0 : i0 < 10 := hip10 i0 (by rw [hip]; simp)
  rw [coreChars]
  by_cases he : e = 0
  · simp only [if_pos he, hip, List.map_cons]
    exact stripNeg_of_ne _ _ (digitChar_ne_neg hi0)
  · simp only [if_neg he, hip, List.map_cons, List.cons_append]
    exact stripNeg_of_ne _ _ (digitChar_ne_neg hi0)

theorem coreChars_ne_nil (ds : List Nat) (e : Nat)
    (hlen : e + 1 ≤ ds.length) :
    coreChars ds e ≠ [] := by
  have hipne := take_sub_ne_nil ds e hlen
  rcases List.exists_cons_of_ne_nil hipne with ⟨i0, ip2, hip⟩
  rw [coreChars]
  by_cases he : e = 0
  · simp [if_pos he, hip]
  · simp [if_neg he, hip]

/-- The decimal printer / parser round trip:
`Number(String(x)) = x` for every modelled JS number. -/
theorem parseDecChars_decChars (d : Dec) :
    parseDecChars (decChars d) = some d := by
  have h10 := mem_padDigits_natDigits_lt d.m.natAbs (d.e + 1)
  have hlen := length_padDigits (natDigits d.m.natAbs) (d.e + 1)
  have hval : valDigits (padDigits (natDigits d.m.natAbs) (d.e + 1)) =
      d.m.natAbs := by
    rw [valDigits_padDigits, valDigits_natDigits]
  by_cases hm : d.m < 0
  · rw [decChars]
    simp only [if_pos hm]
    rw [parseDecChars]
    rw [if_neg (by simp)]
    simp only [stripNeg_neg]
    rw [parseBody_coreChars _ _ _ h10 hlen, hval]
    have hsv : signedVal true d.m.natAbs = d.m := by
      unfold signedVal
      simp only [if_true]
      omega
    rw [hsv]
  · rw [decChars]
    simp only [if_neg hm]
    rw [parseDecChars]
    rw [if_neg (coreChars_ne_nil _ _ hlen)]
    simp only [stripNeg_coreChars _ _ h10 hlen]
    rw [parseBody_coreChars _ _ _ h10 hlen, hval]
    have hsv : signedVal false d.m.natAbs = d.m := by
      unfold signedVal
      simp only [Bool.false_eq_true, if_false]
      omega
    rw [hsv]

/-- `Number(String(x)) = x` including `NaN` (`String(NaN) = "NaN"`,
which parses back to `NaN`). -/
theorem parseDec_jsNumToString (x : JsNum) :
    parseDec (jsNumToString x) = x := by
  match x with
  | none => decide
  | some d =>
    rw [jsNumToString, decToString, parseDec]
    exact parseDecChars_decChars d

/-- Reading back the row written for `p` reproduces `p` exactly:
the write side stringifies with `String(...)`, the read side parses
with `Number(...)`, and `null` request prices survive as `null`. -/
theorem pricingOfRow_rowOf (p : OpenRouterPricing) :
    pricingOfRow (rowOf p) = p := by
  cases p with
  | mk mid pp cp rp cur =>
    unfold pricingOfRow rowOf
    cases rp <;> simp [parseDec_jsNumToString]

theorem replace_filter_nil (tl : PricingStore) (mid : String)
    (row : PricingRow) (h : ∀ r ∈ tl, (r.modelId == mid) = false) :
    (tl.map (fun r => if r.modelId == mid then row else r)).filter
      (fun r => r.modelId == mid) = [] := by
  induction tl with
  | nil => rfl
  | cons hd tl2 ih =>
    have hhd := h hd (by simp)
    rw [List.map_cons, if_neg (by simp [hhd]), List.filter_cons]
    rw [if_neg (by simp [hhd])]
    exact ih (fun r hr => h r (by simp [hr]))

theorem filter_map_replace (st : PricingStore) (mid : String)
    (row : PricingRow) (hnd : (st.map (fun r => r.modelId)).Nodup)
    (hmem : st.any (fun r => r.modelId == mid) = true)
    (hrow : row.modelId = mid) :
    (st.map (fun r => if r.modelId == mid then row else r)).filter
      (fun r => r.modelId == mid) = [row] := by
  induction st with
  | nil => simp at hmem
  | cons hd tl ih =>
    rw [List.map_cons, List.nodup_cons] at hnd
    by_cases hh : (hd.modelId == mid) = true
    · have hdeq : hd.modelId = mid := by simpa using hh
      have htl : ∀ r ∈ tl, (r.modelId == mid) = false := by
        intro r hr
        by_contra hcon
        have : (r.modelId == mid) = true := by
          cases hx : (r.modelId == mid) with
          | true => rfl
          | false => exact absurd hx hcon
        have : r.modelId = mid := by simpa using this
        exact hnd.1 (by rw [← hdeq] at this; exact this ▸ List.mem_map_of_mem _ hr)
      rw [List.map_cons, if_pos hh, List.filter_cons]
      rw [if_pos (by simp [hrow])]
      rw [replace_filter_nil tl mid row htl]
    · have hh2 : (hd.modelId == mid) = false := by
        cases hx : (hd.modelId == mid) with
        | true => exact absurd hx hh
        | false => rfl
      rw [List.map_cons, if_neg (by simp [hh2]), List.filter_cons]
      rw [if_neg (by simp [hh2])]
      refine ih hnd.2 ?_
      rw [List.any_cons, hh2] at hmem
      simpa using hmem

theorem filter_not_any (st : PricingStore) (mid : String)
    (h : st.any (fun r => r.modelId == mid) = false) :
    st.filter (fun r => r.modelId == mid) = [] := by
  rw [List.filter_eq_nil_iff]
  intro r hr
  rw [List.any_eq_false] at h
  simp [h r hr]

theorem filter_upsert (st : PricingStore) (p : OpenRouterPricing)
    (hnd : (st.map (fun r => r.modelId)).Nodup) :
    (upsert st p).filter (fun r => r.modelId == p.modelId) = [rowOf p] := by
  unfold upsert
  by_cases hb : st.any (fun r => r.modelId == p.modelId) = true
  · rw [if_pos hb]
    exact filter_map_replace st p.modelId (rowOf p) hnd hb rfl
  · have hb2 : st.any (fun r => r.modelId == p.modelId) = false := by
      cases hx : st.any (fun r => r.modelId == p.modelId) with
      | true => exact absurd hx hb
      | false => rfl
    rw [if_neg (by simp [hb2]), List.filter_append]
    rw [filter_not_any st p.modelId hb2]
    simp [rowOf]

/-- C8: prices round-trip through the store — for every pricing record
(over a store keyed uniquely by modelId, the table's invariant),
`upsert` stores the prompt, completion and request prices as
decimal-preserving text (`rowOf`), and a subsequent `getByModelIds` for
that modelId converts them back to numeric form, returning exactly the
upserted record: same prompt and completion prices, and the request
price preserved (`null` as `null`). -/
theorem claim_C8_price_round_trip (st : PricingStore) (p : OpenRouterPricing)
    (hnd : (st.map (fun r => r.modelId)).Nodup) :
    (getByModelIds (upsert st p) [p.modelId]).1 = [p] := by
  unfold getByModelIds
  rw [if_neg (by simp)]
  have hpred : (fun r : PricingRow => [p.modelId].contains r.modelId) =
      (fun r : PricingRow => r.modelId == p.modelId) := by
    funext r
    by_cases h : r.modelId = p.modelId
    · simp [List.contains_cons, beq_iff_eq, h]
    · have h2 : ¬(p.modelId = r.modelId) := fun hh => h (Eq.symm hh)
      simp [List.contains_cons, beq_iff_eq, h, h2]
  simp only [hpred]
  rw [filter_upsert st p hnd, List.map_cons, List.map_nil, pricingOfRow_rowOf]

/-- Witness for C8 at a concrete store and record. -/
theorem claim_C8_witness :
    (getByModelIds (upsert [] pricingW) [pricingW.modelId]).1 = [pricingW] :=
  claim_C8_price_round_trip [] pricingW (by simp)

/-- C9: `getByModelIds` on an empty id list returns an empty result and
issues no database query (the returned flag records whether a round
trip happened). -/
theorem claim_C9_empty_ids (st : PricingStore) :
    getByModelIds st [] = ([], false) := rfl

/-- C1: `getModel` never fails and always returns a usable handle:
`getModel(undefined)` is the static fallback (the `openai("gpt-4.1")`
handle); `getModel({provider, model})` returns the combined table's
`[provider][model]` entry when present and the fallback when the
provider or model name is absent. -/
theorem claim_C1_getModel_total (compat : List (String × ModelMap))
    (dyn : ModelMap) :
    getModel compat dyn none = fallbackModel ∧
    fallbackModel = LanguageModel.openai "gpt-4.1" ∧
    (∀ p m h, resolveModel compat dyn p m = some h →
      getModel compat dyn (some ⟨p, m⟩) = h) ∧
    (∀ p m, resolveModel compat dyn p m = none →
      getModel compat dyn (some ⟨p, m⟩) = fallbackModel) := by
  refine ⟨rfl, rfl, ?_, ?_⟩
  · intro p m h hres
    unfold resolveModel at hres
    unfold getModel
    cases htl : tableLookup (getAllModels compat dyn) p with
    | none => rw [htl] at hres; exact absurd hres (by simp)
    | some mm =>
      rw [htl] at hres
      simp only [Option.some.injEq] at hres
      simp only [htl]
      rw [hres]
  · intro p m hres
    unfold resolveModel at hres
    unfold getModel
    cases htl : tableLookup (getAllModels compat dyn) p with
    | none => simp [htl]
    | some mm =>
      rw [htl] at hres
      simp only [Option.some.injEq] at hres
      simp only [htl]
      rw [hres]

/-- Witness for C1: a present pair returns that entry, an absent
provider returns the fallback. -/
theorem claim_C1_witness :
    getModel [] openRouterSeedModels (some ⟨"openai", "o3"⟩) =
      LanguageModel.openai "o3" ∧
    getModel [] openRouterSeedModels (some ⟨"nope", "x"⟩) = fallbackModel :=
  ⟨(claim_C1_getModel_total [] openRouterSeedModels).2.2.1 "openai" "o3"
      (LanguageModel.openai "o3") (by decide),
    (claim_C1_getModel_total [] openRouterSeedModels).2.2.2 "nope" "x"
      (by decide)⟩

/-- C5: `isToolCallUnsupportedModel` is a membership test in the
unsupported set fixed at startup (openai-compatible flagged handles
plus the static denylist), and its result for any handle is unaffected
by any number of dynamic-table refreshes. -/
theorem claim_C5_unsupported_fixed (compatU : List LanguageModel)
    (st : RegistryState) (m : LanguageModel) (env : Env)
    (ocs : List FetchOutcome) :
    (isToolCallUnsupportedModel compatU st m = true ↔
      m ∈ allUnsupportedModels compatU) ∧
    isToolCallUnsupportedModel compatU
      ⟨ocs.foldl (fun t oc => (refreshOpenRouterModels env oc t).table)
        st.openRouterDynamicModels⟩ m =
      isToolCallUnsupportedModel compatU st m := by
  constructor
  · unfold isToolCallUnsupportedModel
    exact List.elem_iff
  · rfl

/-- C6: when the OpenRouter credential is absent, empty or the `"****"`
placeholder, no refresh is ever invoked (neither the initial one nor
the interval timer's) and the dynamic table stays at its built-in seed
for the whole process lifetime. -/
theorem claim_C6_no_credential_no_refresh (env : Env)
    (h : env.OPENROUTER_API_KEY = none ∨ env.OPENROUTER_API_KEY = some "" ∨
      env.OPENROUTER_API_KEY = some "****")
    (ticks : Nat) (outcomes : List FetchOutcome) :
    refreshInvocationCount env ticks = 0 ∧
    openRouterTableAfter env outcomes = openRouterSeedModels := by
  have hstart : refreshScheduleStarted env = false := by
    unfold refreshScheduleStarted checkProviderAPIKey
    rcases h with h | h | h <;> rw [h] <;> rfl
  constructor
  · unfold refreshInvocationCount
    rw [hstart]
    rfl
  · unfold openRouterTableAfter
    rw [hstart]
    rfl

/-- Witness for C6 at the concrete key-free environment. -/
theorem claim_C6_witness :
    refreshInvocationCount envNone 5 = 0 ∧
    openRouterTableAfter envNone [FetchOutcome.ok bodyA] =
      openRouterSeedModels :=
  claim_C6_no_credential_no_refresh envNone (Or.inl rfl) 5 [FetchOutcome.ok bodyA]

/-- C7 counterexample: for a provider name outside the `switch` (as
openai-compatible provider names are, when `modelsInfo` passes them in)
the check returns `true` even though no environment secret exists for
it, refuting the claimed equivalence as stated for every provider. -/
theorem claim_C7_counterexample :
    ¬ (checkProviderAPIKey envNone "custom" = true ↔
       keyUsable (specProviderSecret envNone "custom") = true) := by
  decide

/-- C7 (amended): for each of the seven known providers the credential
check returns `true` exactly when that provider's environment secret is
present, non-empty and not the `"****"` placeholder; for any other
provider name (e.g. an openai-compatible one) it returns `true`
unconditionally; and `modelsInfo` re-derives the flag from the
environment through `checkProviderAPIKey` on every call. -/
theorem claim_C7_credential_check (env : Env) (p : String) :
    (p ∈ knownProviderNames →
      (checkProviderAPIKey env p = true ↔
        keyUsable (specProviderSecret env p) = true)) ∧
    (p ∉ knownProviderNames → checkProviderAPIKey env p = true) ∧
    (∀ compatU compat st,
      (modelsInfo env compatU compat st).map
          (fun i => (i.provider, i.hasAPIKey)) =
        (getAllModels compat st.openRouterDynamicModels).map
          (fun pm => (pm.1, checkProviderAPIKey env pm.1))) := by
  refine ⟨?_, ?_, ?_⟩
  · intro hp
    fin_cases hp <;> exact Iff.rfl
  · intro hp
    unfold checkProviderAPIKey
    split <;> simp_all [knownProviderNames]
  · intro compatU compat st
    unfold modelsInfo
    rw [List.map_map]
    rfl

/-- Witness for C7 at concrete environments and provider names. -/
theorem claim_C7_witness :
    (checkProviderAPIKey envW "openRouter" = true ↔
      keyUsable (specProviderSecret envW "openRouter") = true) ∧
    checkProviderAPIKey envNone "totally-unknown" = true :=
  ⟨(claim_C7_credential_check envW "openRouter").1 (by decide),
    (claim_C7_credential_check envNone "totally-unknown").2.1 (by decide)⟩

theorem find?_map_of_key (f : (String × ModelMap) → (String × ModelMap))
    (hf : ∀ x, (f x).1 = x.1) (a : List (String × ModelMap)) (p : String) :
    (a.map f).find? (fun q => q.1 == p) =
      (a.find? (fun q => q.1 == p)).map f := by
  induction a with
  | nil => rfl
  | cons hd tl ih =>
    rw [List.map_cons, List.find?_cons, List.find?_cons, hf hd]
    cases hpd : (hd.1 == p) with
    | true => rfl
    | false => simpa using ih

theorem find?_filter_keep (l : List (String × ModelMap))
    (g : (String × ModelMap) → Bool) (p : String)
    (h : ∀ x ∈ l, x.1 = p → g x = true) :
    (l.filter g).find? (fun q => q.1 == p) =
      l.find? (fun q => q.1 == p) := by
  induction l with
  | nil => rfl
  | cons hd tl ih =>
    by_cases hg : g hd = true
    · rw [List.filter_cons_of_pos hg, List.find?_cons, List.find?_cons]
      cases hpd : (hd.1 == p) with
      | true => rfl
      | false => simpa using ih (fun x hx => h x (by simp [hx]))
    · have hkey : (hd.1 == p) = false := by
        cases hx : (hd.1 == p) with
        | true => exact absurd (h hd (by simp) (by simpa using hx)) hg
        | false => rfl
      rw [List.filter_cons_of_neg (by simpa using hg), List.find?_cons, hkey]
      simpa using ih (fun x hx => h x (by simp [hx]))

theorem option_some_or {α : Type u_1} (v : α) (x : Option α) :
    (some v).or x = some v := rfl

theorem tableLookup_spread_right (a b : List (String × ModelMap))
    (p : String) (q : String × ModelMap)
    (hq : b.find? (fun x => x.1 == p) = some q) :
    tableLookup (spreadMerge a b) p = some q.2 := by
  unfold tableLookup spreadMerge
  rw [List.find?_append]
  have hkeyf : ∀ x : String × ModelMap,
      ((match b.find? (fun y => y.1 == x.1) with
        | some y => (x.1, y.2)
        | none => x) : String × ModelMap).1 = x.1 := by
    intro x
    cases b.find? (fun y => y.1 == x.1) <;> rfl
  rw [find?_map_of_key _ hkeyf a p]
  cases hfa : a.find? (fun x => x.1 == p) with
  | some pr =>
    have hprkey : pr.1 = p := by simpa using List.find?_some hfa
    have hfpr : (match b.find? (fun y => y.1 == pr.1) with
        | some y => ((pr.1, y.2) : String × ModelMap)
        | none => pr) = (pr.1, q.2) := by
      rw [hprkey, hq]
    rw [Option.map_some', option_some_or, hfpr, Option.map_some']
  | none =>
    rw [Option.map_none', Option.none_or]
    have hnokey : ∀ x ∈ a, (x.1 == p) = false := by
      intro x hx
      have := List.find?_eq_none.mp hfa x hx
      cases hb : (x.1 == p) with
      | true => exact absurd hb this
      | false => rfl
    have hany : ∀ x : String × ModelMap, x ∈ b → x.1 = p →
        (!(a.any (fun y => y.1 == x.1))) = true := by
      intro x _ hxp
      rw [hxp]
      have : a.any (fun y => y.1 == p) = false := by
        rw [List.any_eq_false]
        intro y hy
        simp [hnokey y hy]
      simp [this]
    rw [find?_filter_keep b _ p hany, hq, Option.map_some']

/-- C10: in the combined table used by `getModel` and `modelsInfo`, a
provider identifier that is one of the static names (including the
dynamic `openRouter` key) resolves to the static table's map — the
static spread is applied after the openai-compatible one, so it shadows
any same-named compatible provider. -/
theorem claim_C10_static_shadows_compat (compat : List (String × ModelMap))
    (dyn : ModelMap) (p : String) (hp : p ∈ knownProviderNames) :
    tableLookup (getAllModels compat dyn) p =
      tableLookup (staticWithDyn dyn) p := by
  fin_cases hp
  · exact (tableLookup_spread_right compat (staticWithDyn dyn) "openai" ("openai", openaiModels) rfl).trans rfl
  · exact (tableLookup_spread_right compat (staticWithDyn dyn) "google" ("google", googleModels) rfl).trans rfl
  · exact (tableLookup_spread_right compat (staticWithDyn dyn) "anthropic" ("anthropic", anthropicModels) rfl).trans rfl
  · exact (tableLookup_spread_right compat (staticWithDyn dyn) "xai" ("xai", xaiModels) rfl).trans rfl
  · exact (tableLookup_spread_right compat (staticWithDyn dyn) "ollama" ("ollama", ollamaModels) rfl).trans rfl
  · exact (tableLookup_spread_right compat (staticWithDyn dyn) "groq" ("groq", groqModels) rfl).trans rfl
  · exact (tableLookup_spread_right compat (staticWithDyn dyn) "openRouter" ("openRouter", dyn) rfl).trans rfl

/-- Witness for C10: a compat table that rebinds `"openai"` is shadowed
by the static `openai` map. -/
theorem claim_C10_witness :
    tableLookup (getAllModels
        [("openai", [("x", LanguageModel.compat "openai" "x")])]
        openRouterSeedModels) "openai" =
      tableLookup (staticWithDyn openRouterSeedModels) "openai" :=
  claim_C10_static_shadows_compat
    [("openai", [("x", LanguageModel.compat "openai" "x")])]
    openRouterSeedModels "openai" (by decide)

theorem validId_some {m : JVal} {id : String} (h : validId m = some id) :
    jGet m "id" = some (JVal.str id) ∧ id ≠ "" := by
  unfold validId at h
  split at h
  · rename_i s heq
    split at h
    · exact absurd h (by simp)
    · rename_i hs
      have hsid : s = id := by simpa using h
      subst hsid
      exact ⟨heq, hs⟩
  · exact absurd h (by simp)

theorem processEntry_skip (acc : ModelMap × List OpenRouterPricing) (m : JVal)
    (h : validId m = none) : processEntry acc m = acc := by
  unfold processEntry
  unfold validId at h
  split at h
  · rename_i s heq
    split at h
    · rename_i hs
      rw [if_pos hs]
    · exact absurd h (by simp)
  · rfl

theorem processEntry_fst (acc : ModelMap × List OpenRouterPricing) (m : JVal) :
    (processEntry acc m).1 =
      match validId m with
      | none => acc.1
      | some id => mapInsert acc.1 id (.openrouter id) := by
  unfold processEntry validId
  split
  · rename_i s heq
    by_cases hs : s = ""
    · rw [if_pos hs, if_pos hs]
    · rw [if_neg hs, if_neg hs]
      dsimp only
      split <;> (try split) <;> rfl
  · rfl

theorem foldl_processEntry_invalid (list : List JVal)
    (acc : ModelMap × List OpenRouterPricing)
    (h : ∀ m ∈ list, validId m = none) :
    list.foldl processEntry acc = acc := by
  induction list generalizing acc with
  | nil => rfl
  | cons m rest ih =>
    rw [List.foldl_cons, processEntry_skip acc m (h m (by simp))]
    exact ih acc (fun x hx => h x (by simp [hx]))

theorem lookup_map_replace_self (m : ModelMap) (k : String) (v : LanguageModel)
    (hany : m.any (fun p => p.1 == k) = true) :
    mapLookup (m.map (fun p => if p.1 == k then (k, v) else p)) k = some v := by
  induction m with
  | nil => simp at hany
  | cons hd tl ih =>
    by_cases hh : hd.1 = k
    · simp [mapLookup, List.find?_cons, hh]
    · have hh2 : (hd.1 == k) = false := by simp [hh]
      rw [List.any_cons, hh2] at hany
      simp only [Bool.false_or] at hany
      unfold mapLookup
      rw [List.map_cons, if_neg (by simp [hh]), List.find?_cons, hh2]
      exact ih hany

theorem lookup_map_replace_other (m : ModelMap) (k k' : String)
    (v : LanguageModel) (hne : k' ≠ k) :
    mapLookup (m.map (fun p => if p.1 == k then (k, v) else p)) k' =
      mapLookup m k' := by
  induction m with
  | nil => rfl
  | cons hd tl ih =>
    unfold mapLookup
    rw [List.map_cons, List.find?_cons, List.find?_cons]
    by_cases hh : hd.1 = k
    · rw [if_pos (by simp [hh])]
      have hkk : ((k, v).1 == k') = false := by
        rw [beq_eq_false_iff_ne]
        exact fun hcon => hne (Eq.symm hcon)
      have hhd : (hd.1 == k') = false := by
        rw [hh]
        simpa using hkk
      rw [hkk, hhd]
      exact ih
    · rw [if_neg (by simp [hh])]
      cases hh2 : (hd.1 == k') with
      | true => rfl
      | false => exact ih

theorem mapLookup_mapInsert (m : ModelMap) (k k' : String) (v : LanguageModel) :
    mapLookup (mapInsert m k v) k' =
      if k' = k then some v else mapLookup m k' := by
  unfold mapInsert
  by_cases hany : m.any (fun p => p.1 == k) = true
  · rw [if_pos hany]
    by_cases hk : k' = k
    · subst hk
      rw [if_pos rfl]
      exact lookup_map_replace_self m k' v hany
    · rw [if_neg hk]
      exact lookup_map_replace_other m k k' v hk
  · rw [if_neg hany]
    unfold mapLookup
    rw [List.find?_append]
    by_cases hk : k' = k
    · subst hk
      have hfm : m.find? (fun p => p.1 == k') = none := by
        rw [List.find?_eq_none]
        intro x hx hcon
        exact hany (List.any_eq_true.mpr ⟨x, hx, hcon⟩)
      rw [hfm, Option.none_or, if_pos rfl]
      simp [List.find?_cons]
    · rw [if_neg hk]
      have hf2 : List.find? (fun p => p.1 == k') [(k, v)] = none := by
        rw [List.find?_eq_none]
        intro x hx hcon
        rw [List.mem_singleton] at hx
        subst hx
        exact hk (Eq.symm (by simpa using hcon))
      rw [hf2]
      cases hfm : m.find? (fun p => p.1 == k') <;> rfl

theorem foldl_processEntry_lookup (list : List JVal)
    (acc : ModelMap × List OpenRouterPricing) (k : String) :
    mapLookup ((list.foldl processEntry acc).1) k =
      if k ∈ list.filterMap validId then some (.openrouter k)
      else mapLookup acc.1 k := by
  induction list generalizing acc with
  | nil => simp
  | cons m rest ih =>
    rw [List.foldl_cons, ih (processEntry acc m), processEntry_fst]
    cases hv : validId m with
    | none => rw [List.filterMap_cons_none hv]
    | some id =>
      rw [List.filterMap_cons_some hv]
      dsimp only
      by_cases hmem : k ∈ rest.filterMap validId
      · rw [if_pos hmem, if_pos (by simp [hmem])]
      · rw [if_neg hmem, mapLookup_mapInsert]
        by_cases hkid : k = id
        · subst hkid
          rw [if_pos rfl, if_pos (by simp)]
        · rw [if_neg hkid, if_neg (by simp [hkid, hmem])]

/-- C2 counterexample: with a parsed entry list containing an entry
whose `id` field IS a string — the empty string — the refresh skips it
(`!id`), so the table does not contain every modelId whose id field is
a string, refuting the claim as stated. -/
theorem claim_C2_counterexample :
    extractList bodyA ≠ [] ∧
    JVal.obj [("id", JVal.str "")] ∈ extractList bodyA ∧
    jGet (JVal.obj [("id", JVal.str "")]) "id" = some (JVal.str "") ∧
    mapLookup (refreshOpenRouterModels envW (.ok bodyA) seedA).table "" = none ∧
    mapLookup (refreshOpenRouterModels envW (.ok bodyA) seedA).table "B" =
      some (.openrouter "B") := by
  have h : extractList bodyA =
      [JVal.obj [("id", JVal.str "")], JVal.obj [("id", JVal.str "B")]] := rfl
  refine ⟨?_, ?_, rfl, rfl, rfl⟩
  · rw [h]
    exact List.cons_ne_nil _ _
  · rw [h]
    exact List.mem_cons_self _ _

/-- C2 (amended): for every refresh whose entry list contains at least
one entry with a truthy (non-empty) string id, the dynamic table
afterwards contains exactly those truthy string ids — each mapped to a
freshly constructed openrouter handle for that id — and every old entry
whose id is not among them is gone (full replacement, not merge). -/
theorem claim_C2_refresh_replaces (env : Env) (key : String) (body : JVal)
    (old : ModelMap) (hkey : env.OPENROUTER_API_KEY = some key)
    (hk1 : key ≠ "") (hk2 : key ≠ "****")
    (hne : (extractList body).filterMap validId ≠ []) :
    (∀ k, mapLookup (refreshOpenRouterModels env (.ok body) old).table k ≠ none ↔
        k ∈ (extractList body).filterMap validId) ∧
    (∀ k ∈ (extractList body).filterMap validId,
      mapLookup (refreshOpenRouterModels env (.ok body) old).table k =
        some (.openrouter k)) := by
  obtain ⟨k0, hk0⟩ := List.exists_mem_of_ne_nil _ hne
  have hlk : mapLookup (((extractList body).foldl processEntry ([], [])).1) k0 =
      some (.openrouter k0) := by
    rw [foldl_processEntry_lookup, if_pos hk0]
  have hpos : 0 < (((extractList body).foldl processEntry ([], [])).1).length := by
    cases hl : ((extractList body).foldl processEntry ([], [])).1 with
    | nil => rw [hl] at hlk; exact absurd hlk (by simp [mapLookup])
    | cons a l => simp
  have htab : (refreshOpenRouterModels env (.ok body) old).table =
      ((extractList body).foldl processEntry ([], [])).1 := by
    unfold refreshOpenRouterModels
    rw [hkey]
    dsimp only
    rw [if_neg (by simp [hk1, hk2])]
    dsimp only
    rw [if_pos hpos]
  constructor
  · intro k
    rw [htab, foldl_processEntry_lookup]
    by_cases hmem : k ∈ (extractList body).filterMap validId
    · rw [if_pos hmem]
      simp [hmem]
    · rw [if_neg hmem]
      simp [hmem, mapLookup]
  · intro k hk
    rw [htab, foldl_processEntry_lookup, if_pos hk]

/-- Witness for C2 at the concrete refresh of `bodyA`: the truthy
string id `"B"` is present, and the old entry `"A"` is gone. -/
theorem claim_C2_witness :
    mapLookup (refreshOpenRouterModels envW (.ok bodyA) seedA).table "B" =
      some (.openrouter "B") ∧
    ¬ (mapLookup (refreshOpenRouterModels envW (.ok bodyA) seedA).table "A" ≠
        none) :=
  ⟨(claim_C2_refresh_replaces envW "sk-or-test" bodyA seedA rfl (by decide)
      (by decide) (by decide)).2 "B" (by decide),
   fun hcon =>
    (by decide :
      ¬ ("A" ∈ (extractList bodyA).filterMap validId))
      (((claim_C2_refresh_replaces envW "sk-or-test" bodyA seedA rfl (by decide)
        (by decide) (by decide)).1 "A").mp hcon)⟩

/-- C3: a refresh whose fetch fails (network error, non-success status,
JSON parse failure), or whose entry list yields no valid id (including
a malformed body with no `data`/`models` array, which extracts to `[]`),
completes silently: the previous dynamic table is returned unchanged
and zero pricing upserts are issued.  Moreover every refresh either
leaves the table untouched or replaces it wholesale with the freshly
built map — partial replacement never occurs. -/
theorem claim_C3_refresh_silent_failure (env : Env) (old : ModelMap) :
    (∀ oc, oc = FetchOutcome.netError ∨ oc = FetchOutcome.notOk ∨
        oc = FetchOutcome.jsonError →
      refreshOpenRouterModels env oc old = ⟨old, []⟩) ∧
    (∀ body, (extractList body).filterMap validId = [] →
      refreshOpenRouterModels env (.ok body) old = ⟨old, []⟩) ∧
    (∀ oc, (refreshOpenRouterModels env oc old).table = old ∨
      ∃ body, oc = FetchOutcome.ok body ∧
        (refreshOpenRouterModels env oc old).table =
          ((extractList body).foldl processEntry ([], [])).1) := by
  refine ⟨?_, ?_, ?_⟩
  · intro oc h
    unfold refreshOpenRouterModels
    cases hk : env.OPENROUTER_API_KEY with
    | none => rfl
    | some key =>
      dsimp only
      by_cases hkk : key = "" ∨ key = "****"
      · rw [if_pos hkk]
      · rw [if_neg hkk]
        rcases h with rfl | rfl | rfl <;> rfl
  · intro body hid
    have hfold : (extractList body).foldl processEntry ([], []) = ([], []) :=
      foldl_processEntry_invalid _ _ (List.filterMap_eq_nil_iff.mp hid)
    unfold refreshOpenRouterModels
    cases hk : env.OPENROUTER_API_KEY with
    | none => rfl
    | some key =>
      dsimp only
      by_cases hkk : key = "" ∨ key = "****"
      · rw [if_pos hkk]
      · rw [if_neg hkk]
        rw [hfold]
        rfl
  · intro oc
    unfold refreshOpenRouterModels
    cases hk : env.OPENROUTER_API_KEY with
    | none => exact Or.inl rfl
    | some key =>
      dsimp only
      by_cases hkk : key = "" ∨ key = "****"
      · rw [if_pos hkk]
        exact Or.inl rfl
      · rw [if_neg hkk]
        cases oc with
        | netError => exact Or.inl rfl
        | notOk => exact Or.inl rfl
        | jsonError => exact Or.inl rfl
        | ok body =>
          dsimp only
          by_cases hlen :
              0 < ((extractList body).foldl processEntry ([], [])).1.length
          · refine Or.inr ⟨body, rfl, ?_⟩
            dsimp only
            rw [if_pos hlen]
          · refine Or.inl ?_
            dsimp only
            rw [if_neg hlen]

/-- Witness for C3: a failed fetch and an entry-free body both leave
the concrete table untouched with zero upserts. -/
theorem claim_C3_witness :
    refreshOpenRouterModels envW FetchOutcome.netError seedA =
      ⟨seedA, []⟩ ∧
    refreshOpenRouterModels envW (.ok (JVal.obj [])) seedA = ⟨seedA, []⟩ :=
  ⟨(claim_C3_refresh_silent_failure envW seedA).1 FetchOutcome.netError
      (Or.inl rfl),
   (claim_C3_refresh_silent_failure envW seedA).2.1 (JVal.obj []) (by decide)⟩

/-- C4 counterexample: an entry whose `pricing.prompt` is the number
`0` — which coerces to the number `0`, hence "parses as a number" — is
nevertheless skipped by the truthiness guard, so it triggers zero
upserts, refuting the claim as stated. -/
theorem claim_C4_counterexample :
    jsToNumberO ((jGet (JVal.obj [("id", JVal.str "m"),
        ("pricing", JVal.obj [("prompt", JVal.num ⟨0, 0⟩),
          ("completion", JVal.str "0.5")])]) "pricing").bind
        (fun p => jGet p "prompt")) = some ⟨0, 0⟩ ∧
    jsToNumberO ((jGet (JVal.obj [("id", JVal.str "m"),
        ("pricing", JVal.obj [("prompt", JVal.num ⟨0, 0⟩),
          ("completion", JVal.str "0.5")])]) "pricing").bind
        (fun p => jGet p "completion")) = some ⟨5, 1⟩ ∧
    (processEntry ([], []) (JVal.obj [("id", JVal.str "m"),
        ("pricing", JVal.obj [("prompt", JVal.num ⟨0, 0⟩),
          ("completion", JVal.str "0.5")])])).2 = [] ∧
    (refreshOpenRouterModels envW (.ok bodyZeroPrompt) seedA).upserts = [] := by
  refine ⟨by decide, by decide, by decide, by decide⟩

/-- C4 (amended): during a refresh, an entry whose pricing has a
non-numeric (`NaN`-coercing) prompt field or a missing completion field
is never upserted; an entry with a valid id whose `pricing`, `prompt`
and `completion` are all truthy and whose prompt and completion coerce
to numbers triggers exactly one upsert for its modelId with currency
`"USD"` and `requestPrice` `null` when the `request` field is absent. -/
theorem claim_C4_pricing_upsert_guard
    (acc : ModelMap × List OpenRouterPricing) (m : JVal) :
    ((jsToNumberO ((jGet m "pricing").bind (fun p => jGet p "prompt")) = none ∨
      (jGet m "pricing").bind (fun p => jGet p "completion") = none) →
      (processEntry acc m).2 = acc.2) ∧
    (∀ id pp cp, validId m = some id →
      truthyO (jGet m "pricing") = true →
      truthyO ((jGet m "pricing").bind (fun p => jGet p "prompt")) = true →
      truthyO ((jGet m "pricing").bind (fun p => jGet p "completion")) = true →
      jsToNumberO ((jGet m "pricing").bind (fun p => jGet p "prompt")) = some pp →
      jsToNumberO ((jGet m "pricing").bind (fun p => jGet p "completion")) = some cp →
      (jGet m "pricing").bind (fun p => jGet p "request") = none →
      (processEntry acc m).2 = acc.2 ++
        [{ modelId := id, promptPrice := some pp, completionPrice := some cp,
           requestPrice := none, currency := "USD" }]) := by
  constructor
  · intro h
    unfold processEntry
    split
    · rename_i s heq
      by_cases hs : s = ""
      · rw [if_pos hs]
      · rw [if_neg hs]
        dsimp only
        rcases h with h | h
        · by_cases h1 : (truthyO (jGet m "pricing") &&
              truthyO ((jGet m "pricing").bind fun p => jGet p "prompt") &&
              truthyO ((jGet m "pricing").bind fun p => jGet p "completion")) = true
          · rw [if_pos h1, if_neg (by rw [h]; simp)]
          · rw [if_neg h1]
        · rw [if_neg (by rw [h]; simp [truthyO])]
    · rfl
  · intro id pp cp hvm htp htpr htc hpn hcn hreq
    obtain ⟨hj, hs⟩ := validId_some hvm
    unfold processEntry
    split
    · rename_i s heq
      rw [hj] at heq
      have hsid : s = id := by
        have := heq
        simp at this
        exact this.symm
      subst hsid
      rw [if_neg hs]
      dsimp only
      rw [if_pos (by rw [htp, htpr, htc]; rfl)]
      rw [hpn, hcn, hreq]
      rw [if_pos (by simp)]
      rw [if_neg (by simp [truthyO])]
    · rename_i hne
      exact absurd hj (by simpa using hne id)

/-- Witness for C4: a fully priced entry issues exactly one upsert with
currency `"USD"` and a `null` request price. -/
theorem claim_C4_witness :
    (processEntry ([], []) (JVal.obj [("id", JVal.str "m"),
        ("pricing", JVal.obj [("prompt", JVal.str "0.000001"),
          ("completion", JVal.str "0.000002")])])).2 =
      [] ++ [{ modelId := "m", promptPrice := some ⟨1, 6⟩,
               completionPrice := some ⟨2, 6⟩, requestPrice := none,
               currency := "USD" }] :=
  (claim_C4_pricing_upsert_guard ([], [])
      (JVal.obj [("id", JVal.str "m"),
        ("pricing", JVal.obj [("prompt", JVal.str "0.000001"),
          ("completion", JVal.str "0.000002")])])).2
    "m" ⟨1, 6⟩ ⟨2, 6⟩ (by decide) (by decide) (by decide) (by decide)
    (by decide) (by decide) rfl
